import Mathlib

/-!
Shallow embedding of `src/qlever/commands/update_wikidata.py` (the
`UpdateWikidataCommand.execute` method), restricted to the parts that the
verified properties are about: the per-triple changeset operations, the
per-event batch-assembly step with its closing conditions, the batch
assembly loop, the offset check before a batch, and the offset/watermark
bookkeeping of the outer loop.

Modelling decisions (each noted again at the definition it concerns):
- Python `set` objects become `Finset String`; canonical triple strings
  are modelled as opaque `String` keys (the canonicalization itself,
  `node_to_sparql`, is not needed by any property proved here).
- Timestamps are modelled as integer epoch seconds. The source compares
  the ISO date string of an event with `args.until` lexicographically;
  for the fixed-format ISO timestamps produced by the stream this order
  agrees with the epoch order, so both comparisons use the epoch value.
- A turtle payload field is either absent (`None` in the source), present
  but unparseable (`graph.parse` raises), or a list of canonical triple
  strings.
- Wall-clock `now` is a parameter; the source calls `time.time()` per
  event, the model passes one value per assembly run, which is enough for
  every property stated here (each property constrains a single event's
  freshness comparison).
-/

namespace UpdateWikidata

/-- One RDF data field of a stream event (`rdf_added_data`,
`rdf_deleted_data`, `rdf_linked_shared_data`, `rdf_unlinked_shared_data`).
`absent` models the field being `None`; `malformed` models a payload on
which `graph.parse` raises; `triples ts` models a payload that parses into
the canonical triple strings `ts`. -/
inductive Payload where
  | absent : Payload
  | malformed : Payload
  | triples (ts : List String) : Payload
deriving DecidableEq

/-- The `meta.dt` field of an event. `missing` models `dt` being `None`
(the `re.sub` call at line 640 raises before any closing condition is
checked); `unparseable` models a string rejected by `strptime` at line 693
(raised after conditions 1 and 2 but before conditions 3 and 4);
`valid d` models a date that parses to epoch second `d`. -/
inductive DateField where
  | missing : DateField
  | unparseable : DateField
  | valid (epoch : Int) : DateField
deriving DecidableEq

/-- A parsed SSE stream event (the fields extracted at lines 631-654 of
the source). `part` is the source's `partition` field. -/
structure Event where
  topic : String
  part : Nat
  offset : Nat
  dt : DateField
  entity_id : String
  operation : String
  rdf_added_data : Payload
  rdf_deleted_data : Payload
  rdf_linked_shared_data : Payload
  rdf_unlinked_shared_data : Payload
deriving DecidableEq

/-- The command-line arguments relevant to batch assembly. `until_date`
is the source's `args.until` (as an epoch second, see the file comment). -/
structure Args where
  batch_size : Nat
  lag_seconds : Int
  num_messages : Option Nat
  until_date : Option Int
  topic : String
deriving DecidableEq

/-- The resume token `event_id_for_next_batch[0]` (a
`{topic, partition, offset}` record in the source). -/
structure EventId where
  topic : String
  part : Nat
  offset : Nat
deriving DecidableEq

/-- The mutable per-batch accumulators of the inner loop (lines 475, 572,
575-576 of the source) together with the across-batches message counter
`total_num_messages` and the resume token `event_id_for_next_batch`.
The purely statistical accumulators (`date_list`, `delta_to_now_list`)
are omitted; no property here mentions them. -/
structure BatchState where
  current_batch_size : Nat
  total_num_messages : Nat
  delete_entity_ids : Finset String
  insert_triples : Finset String
  delete_triples : Finset String
  event_id_for_next_batch : Option EventId
deriving DecidableEq

/-- The batch accumulators at the start of a batch (lines 475-576,
480: `event_id_for_next_batch = None`): empty sets, zero batch size,
`total` messages carried over from earlier batches. -/
def initBatch (total : Nat) : BatchState :=
  { current_batch_size := 0
    total_num_messages := total
    delete_entity_ids := ∅
    insert_triples := ∅
    delete_triples := ∅
    event_id_for_next_batch := none }

/-- Lines 779-781 of the source, applied to the pair
(insert_triples, delete_triples):
if the triple is in `insert_triples`, remove it; then unconditionally add
it to `delete_triples`. (The `add` is NOT in an `else` branch in the
source; the source comment explains that the `delete` must be kept in
case the triple is contained in the original data.) -/
def applyDeleteTriple (acc : Finset String × Finset String) (t : String) :
    Finset String × Finset String :=
  ((if t ∈ acc.1 then acc.1.erase t else acc.1), insert t acc.2)

/-- Lines 812-814 of the source, applied to the pair
(insert_triples, delete_triples):
if the triple is in `delete_triples`, remove it; then unconditionally add
it to `insert_triples`. -/
def applyInsertTriple (acc : Finset String × Finset String) (t : String) :
    Finset String × Finset String :=
  (insert t acc.1, (if t ∈ acc.2 then acc.2.erase t else acc.2))

/-- One to-be-deleted payload (lines 756-786): an absent field leaves the
sets unchanged, a payload on which `graph.parse` raises makes the whole
run fail (`return False` at line 786, modelled as `none`), and a parsed
payload applies `applyDeleteTriple` for each of its triples. -/
def applyDeletePayload (acc : Finset String × Finset String) (p : Payload) :
    Option (Finset String × Finset String) :=
  match p with
  | .absent => some acc
  | .malformed => none
  | .triples ts => some (ts.foldl applyDeleteTriple acc)

/-- One to-be-added payload (lines 788-819): as `applyDeletePayload`, with
`applyInsertTriple` per triple and `return False` at line 819 modelled as
`none`. -/
def applyInsertPayload (acc : Finset String × Finset String) (p : Payload) :
    Option (Finset String × Finset String) :=
  match p with
  | .absent => some acc
  | .malformed => none
  | .triples ts => some (ts.foldl applyInsertTriple acc)

/-- The whole data-merging part of one event (lines 755-819 of the
source): the two to-be-deleted payloads (`rdf_deleted_data`, then
`rdf_unlinked_shared_data`) followed by the two to-be-added payloads
(`rdf_added_data`, then `rdf_linked_shared_data`); `none` when any of the
four `graph.parse` calls raises (`return False`). -/
def applyEventPayloads (acc : Finset String × Finset String) (e : Event) :
    Option (Finset String × Finset String) :=
  match applyDeletePayload acc e.rdf_deleted_data with
  | none => none
  | some acc1 =>
    match applyDeletePayload acc1 e.rdf_unlinked_shared_data with
    | none => none
    | some acc2 =>
      match applyInsertPayload acc2 e.rdf_added_data with
      | none => none
      | some acc3 => applyInsertPayload acc3 e.rdf_linked_shared_data

/-- An operation on the changeset pair concerning one triple, for stating
properties about interleavings of the per-triple operations of
lines 779-781 and 812-814. -/
inductive TripleOp where
  | del : TripleOp
  | ins : TripleOp
deriving DecidableEq

/-- Apply one labelled per-triple operation to the changeset pair. -/
def applyTripleOp (acc : Finset String × Finset String)
    (op : TripleOp × String) : Finset String × Finset String :=
  match op.1 with
  | .del => applyDeleteTriple acc op.2
  | .ins => applyInsertTriple acc op.2

/-- Which closing condition of the inner loop fired: lines 666-682
(condition 1, delete-then-add conflict), 684-690 (condition 2, batch size
or message limit), 692-715 (condition 3, message close to current time),
717-729 (condition 4, `--until` date reached). -/
inductive CloseReason where
  | conflict : CloseReason
  | sizeLimit : CloseReason
  | freshness : CloseReason
  | horizon : CloseReason
deriving DecidableEq

/-- Outcome of handling one event of the inner loop body (lines 618-866):
`consumed st` — the event's data was merged into the batch and the
tracking variables updated (lines 731-856); `skipped st` — the event was
passed over without touching the batch (`continue`: wrong topic at
line 627, or a malformed field raising into the handler at lines 821-824);
`closed r st` — a closing condition fired and the batch is finished
(`break` out of the inner loop, batch variables untouched by this event);
`fatal` — the run fails (`return False` at line 786 or 819). -/
inductive StepResult where
  | consumed (st : BatchState) : StepResult
  | skipped (st : BatchState) : StepResult
  | closed (r : CloseReason) (st : BatchState) : StepResult
  | fatal : StepResult
deriving DecidableEq

/-- The second disjunct of condition 2 (lines 687-689):
`args.num_messages is not None and total_num_messages >= args.num_messages`. -/
def numMessagesReached (num_messages : Option Nat) (total : Nat) : Bool :=
  match num_messages with
  | some m => total ≥ m
  | none => false

/-- The guard of condition 4 without the non-emptiness conjunct
(lines 720-721): `args.until and date >= args.until` (the source compares
ISO date strings, the model the corresponding epoch seconds). -/
def untilReached (until_date : Option Int) (d : Int) : Bool :=
  match until_date with
  | some u => d ≥ u
  | none => false

/-- One iteration of the inner event loop (lines 618-866), handling the
event `e` against the batch state `st` at wall-clock time `now`.
The order mirrors the source: topic filter (627); field extraction, where a
missing `dt` raises at line 640 into the skip handler; condition 1
(conflict, 666-682); condition 2 (size or message limit, 684-690); date
parsing, where an unparseable `dt` raises at line 693 into the skip
handler; condition 3 (freshness, 692-715); condition 4 (`--until`,
717-729); recording of a delete operation's entity id (731-734); the four
payloads, deletions before insertions (755-819); and the tracking updates
including `event_id_for_next_batch = {topic, partition, offset + 1}`
(826-856). Events that are not of type `message` or have no `data`
(line 623) are outside the model: an `Event` value is already parsed. -/
def processEvent (args : Args) (now : Int) (st : BatchState) (e : Event) :
    StepResult :=
  if e.topic ≠ args.topic then .skipped st
  else if e.dt = DateField.missing then .skipped st
  else if (e.rdf_added_data ≠ Payload.absent ∨
           e.rdf_linked_shared_data ≠ Payload.absent) ∧
          e.entity_id ∈ st.delete_entity_ids then
    .closed .conflict st
  else if st.current_batch_size ≥ args.batch_size ∨
          numMessagesReached args.num_messages st.total_num_messages = true then
    .closed .sizeLimit st
  else
    match e.dt with
    | .missing => .skipped st
    | .unparseable => .skipped st
    | .valid d =>
      if now - d < args.lag_seconds ∧ st.current_batch_size > 0 then
        .closed .freshness st
      else if untilReached args.until_date d = true ∧
              st.current_batch_size > 0 then
        .closed .horizon st
      else
        match applyEventPayloads (st.insert_triples, st.delete_triples) e with
        | none => .fatal
        | some acc =>
          .consumed
            { current_batch_size := st.current_batch_size + 1
              total_num_messages := st.total_num_messages + 1
              delete_entity_ids :=
                if e.operation = "delete" then
                  insert e.entity_id st.delete_entity_ids
                else st.delete_entity_ids
              insert_triples := acc.1
              delete_triples := acc.2
              event_id_for_next_batch :=
                some ⟨e.topic, e.part, e.offset + 1⟩ }

/-- Result of running the inner loop on a finite prefix of the stream:
either some closing condition fired (`closedBatch r st rest`, where `rest`
is the unconsumed remainder of the stream beginning with the event that
triggered the close — the source resumes the next batch from
`event_id_for_next_batch`, which points at exactly that event), or a
payload error made the run fail (`fatalRun`), or the supplied events were
exhausted with the batch still open (`streamEnded st`). -/
inductive AssemblyResult where
  | closedBatch (r : CloseReason) (st : BatchState) (rest : List Event) :
      AssemblyResult
  | fatalRun : AssemblyResult
  | streamEnded (st : BatchState) : AssemblyResult
deriving DecidableEq

/-- The inner event loop (lines 618-866) over a finite list of events. -/
def assemble (args : Args) (now : Int) :
    BatchState → List Event → AssemblyResult
  | st, [] => .streamEnded st
  | st, e :: es =>
    match processEvent args now st e with
    | .consumed st' => assemble args now st' es
    | .skipped st' => assemble args now st' es
    | .closed r st' => .closedBatch r st' (e :: es)
    | .fatal => .fatalRun

/-- Outcome of the offset check before a batch (lines 488-569). -/
inductive OffsetCheckResult where
  | proceed : OffsetCheckResult
  | rewindTo (offset : Nat) : OffsetCheckResult
  | fatalMismatch : OffsetCheckResult
deriving DecidableEq

/-- Lines 524-562 of the source: compare the offset stored in the endpoint
(`endpoint_offset`) with the batch's intended first offset
(`first_offset_in_batch`). Smaller endpoint offset: rewind to the
endpoint offset (`continue` with a rebuilt `event_id_for_next_batch`) when
`--rewind-to-earlier-offset=yes`, else fail (`return False`). Larger
endpoint offset: fail (`return False` at line 562). Equal: fall through
and assemble the batch. -/
def checkOffset (rewind_to_earlier_offset : Bool)
    (endpoint_offset first_offset_in_batch : Nat) : OffsetCheckResult :=
  if endpoint_offset < first_offset_in_batch then
    if rewind_to_earlier_offset then .rewindTo endpoint_offset
    else .fatalMismatch
  else if endpoint_offset > first_offset_in_batch then .fatalMismatch
  else .proceed

/-- The offset bookkeeping of the outer loop (lines 406-1234):
`first_batch` (line 401, set to `False` at line 1222), the offset inside
`event_id_for_next_batch` from which the next batch will be assembled
(`resume_offset`), and the `wikibase:updateStreamNextOffset` watermark
persisted inside the target store (`store_offset`). -/
structure LoopState where
  first_batch : Bool
  resume_offset : Nat
  store_offset : Nat
deriving DecidableEq

/-- Outcome of one iteration of the outer loop, for the offset
bookkeeping: `rewound` — the offset check rewound and the iteration
restarted without assembling (`continue` at line 546); `fatalRun` —
`return False`; `applied st` — the batch's update transaction was accepted
by the store; `abandoned st` — the store's JSON response contained a
top-level `exception` field and the iteration took the `continue` at
line 1028. -/
inductive IterOutcome where
  | rewound (st : LoopState) : IterOutcome
  | fatalRun : IterOutcome
  | applied (st : LoopState) : IterOutcome
  | abandoned (st : LoopState) : IterOutcome
deriving DecidableEq

/-- Assembling a batch of `n` consumed events and applying its
transaction (lines 571-1028 of the source, offset bookkeeping only).
During assembly `event_id_for_next_batch` advances to
`resume_offset + n` (line 854). The transactional behaviour of the target
store is modelled from the spec, since the store is not part of this
repository: the update transaction carries the watermark triple
(lines 926-930), so on acceptance the store's watermark becomes the new
resume offset, and on a store-reported exception the transaction is
rejected as a whole and the store's watermark is untouched. On rejection
the source's `continue` at line 1028 skips the `first_batch = False`
assignment at line 1222, so `first_batch` is unchanged; on acceptance
`first_batch` becomes `false`. -/
def assembleAndApply (st : LoopState) (n : Nat) (store_rejects : Bool) :
    IterOutcome :=
  if store_rejects then
    .abandoned { st with resume_offset := st.resume_offset + n }
  else
    .applied { first_batch := false
               resume_offset := st.resume_offset + n
               store_offset := st.resume_offset + n }

/-- One iteration of the outer loop (lines 406-1234), offset bookkeeping
only. The offset check runs when `--check-offset-before-each-batch=yes`
and this is not the first batch (lines 488-492); a rewind rebuilds
`event_id_for_next_batch` from the endpoint offset and restarts the
iteration (`continue` at line 546, which also skips line 1222, leaving
`first_batch` unchanged); otherwise the batch is assembled and applied. -/
def loopIteration (check_offset rewind_enabled : Bool) (st : LoopState)
    (n : Nat) (store_rejects : Bool) : IterOutcome :=
  if check_offset ∧ st.first_batch = false then
    match checkOffset rewind_enabled st.store_offset st.resume_offset with
    | .rewindTo w => .rewound { st with resume_offset := w }
    | .fatalMismatch => .fatalRun
    | .proceed => assembleAndApply st n store_rejects
  else assembleAndApply st n store_rejects

/-- The events of a payload field, for stating membership hypotheses:
the canonical triple strings a parsed payload contributes. -/
def payloadContains (p : Payload) (t : String) : Prop :=
  match p with
  | .triples ts => t ∈ ts
  | _ => False

/-- Invariant of the batch accumulators relative to the message total
`t0` at batch start: while no event has been consumed the deferred-delete
set is still empty, and the total message counter always equals `t0` plus
the number of events consumed into this batch. -/
def BatchInv (t0 : Nat) (st : BatchState) : Prop :=
  (st.current_batch_size = 0 → st.delete_entity_ids = ∅) ∧
  st.total_num_messages = t0 + st.current_batch_size

/-- `ConsumesAll args now st es st'`: starting from batch state `st`,
every event of `es` is consumed (none skipped, none closing, none fatal),
ending in state `st'`. -/
inductive ConsumesAll (args : Args) (now : Int) :
    BatchState → List Event → BatchState → Prop where
  | nil (st : BatchState) : ConsumesAll args now st [] st
  | cons (st st₁ st' : BatchState) (e : Event) (es : List Event)
      (hstep : processEvent args now st e = .consumed st₁)
      (hrest : ConsumesAll args now st₁ es st') :
      ConsumesAll args now st (e :: es) st'

end UpdateWikidata

namespace UpdateWikidata

/- Helper lemmas about the per-triple operations. -/

theorem applyDeleteTriple_mem_self (acc : Finset String × Finset String)
    (t : String) :
    t ∉ (applyDeleteTriple acc t).1 ∧ t ∈ (applyDeleteTriple acc t).2 := by
  unfold applyDeleteTriple
  constructor
  · by_cases h : t ∈ acc.1 <;> simp [h]
  · simp

theorem applyInsertTriple_mem_self (acc : Finset String × Finset String)
    (t : String) :
    t ∈ (applyInsertTriple acc t).1 ∧ t ∉ (applyInsertTriple acc t).2 := by
  unfold applyInsertTriple
  constructor
  · simp
  · by_cases h : t ∈ acc.2 <;> simp [h]

theorem applyDeleteTriple_mem_other (acc : Finset String × Finset String)
    (t x : String) (hx : x ≠ t) :
    (x ∈ (applyDeleteTriple acc t).1 ↔ x ∈ acc.1) ∧
    (x ∈ (applyDeleteTriple acc t).2 ↔ x ∈ acc.2) := by
  unfold applyDeleteTriple
  constructor
  · by_cases h : t ∈ acc.1 <;> simp [h, hx]
  · simp [hx]

theorem applyInsertTriple_mem_other (acc : Finset String × Finset String)
    (t x : String) (hx : x ≠ t) :
    (x ∈ (applyInsertTriple acc t).1 ↔ x ∈ acc.1) ∧
    (x ∈ (applyInsertTriple acc t).2 ↔ x ∈ acc.2) := by
  unfold applyInsertTriple
  constructor
  · simp [hx]
  · by_cases h : t ∈ acc.2 <;> simp [h, hx]

/-- The disjointness of the two sets of a changeset pair, stated
elementwise. -/
def PairDisjoint (acc : Finset String × Finset String) : Prop :=
  ∀ x, x ∈ acc.1 → x ∉ acc.2

theorem applyTripleOp_disjoint (acc : Finset String × Finset String)
    (op : TripleOp × String) (h : PairDisjoint acc) :
    PairDisjoint (applyTripleOp acc op) := by
  intro x hx1 hx2
  by_cases hxt : x = op.2
  · subst hxt
    cases hop : op.1 <;> unfold applyTripleOp at hx1 hx2 <;> rw [hop] at hx1 hx2
    · exact (applyDeleteTriple_mem_self acc op.2).1 hx1
    · exact (applyInsertTriple_mem_self acc op.2).2 hx2
  · cases hop : op.1 <;> unfold applyTripleOp at hx1 hx2 <;> rw [hop] at hx1 hx2
    · exact h x (((applyDeleteTriple_mem_other acc op.2 x hxt).1).mp hx1)
        (((applyDeleteTriple_mem_other acc op.2 x hxt).2).mp hx2)
    · exact h x (((applyInsertTriple_mem_other acc op.2 x hxt).1).mp hx1)
        (((applyInsertTriple_mem_other acc op.2 x hxt).2).mp hx2)

theorem foldl_applyTripleOp_disjoint (ops : List (TripleOp × String))
    (acc : Finset String × Finset String) (h : PairDisjoint acc) :
    PairDisjoint (ops.foldl applyTripleOp acc) := by
  induction ops generalizing acc with
  | nil => exact h
  | cons op rest ih =>
    exact ih (applyTripleOp acc op) (applyTripleOp_disjoint acc op h)

theorem applyTripleOp_self_mem (acc : Finset String × Finset String)
    (t : String) (op : TripleOp) :
    (t ∈ (applyTripleOp acc (op, t)).1 ↔ op = .ins) ∧
    (t ∈ (applyTripleOp acc (op, t)).2 ↔ op = .del) := by
  cases op with
  | del =>
    have h := applyDeleteTriple_mem_self acc t
    constructor
    · simp only [applyTripleOp]
      simp [h.1]
    · simp only [applyTripleOp]
      simp [h.2]
  | ins =>
    have h := applyInsertTriple_mem_self acc t
    constructor
    · simp only [applyTripleOp]
      simp [h.1]
    · simp only [applyTripleOp]
      simp [h.2]

/- Helper lemmas about the per-event step function. -/

theorem processEvent_skipped_eq {args : Args} {now : Int} {st : BatchState}
    {e : Event} {st' : BatchState}
    (h : processEvent args now st e = .skipped st') : st' = st := by
  unfold processEvent at h
  repeat' split at h
  all_goals cases h
  all_goals rfl

theorem processEvent_closed_eq {args : Args} {now : Int} {st : BatchState}
    {e : Event} {r : CloseReason} {st' : BatchState}
    (h : processEvent args now st e = .closed r st') : st' = st := by
  unfold processEvent at h
  repeat' split at h
  all_goals cases h
  all_goals rfl

theorem processEvent_consumed_counts {args : Args} {now : Int}
    {st : BatchState} {e : Event} {st' : BatchState}
    (h : processEvent args now st e = .consumed st') :
    st'.event_id_for_next_batch = some ⟨e.topic, e.part, e.offset + 1⟩ ∧
    st'.current_batch_size = st.current_batch_size + 1 ∧
    st'.total_num_messages = st.total_num_messages + 1 := by
  unfold processEvent at h
  repeat' split at h
  all_goals cases h
  all_goals exact ⟨rfl, rfl, rfl⟩

theorem foldl_applyDeleteTriple_disjoint (ts : List String)
    (acc : Finset String × Finset String) (h : PairDisjoint acc) :
    PairDisjoint (ts.foldl applyDeleteTriple acc) := by
  induction ts generalizing acc with
  | nil => exact h
  | cons t rest ih => exact ih _ (applyTripleOp_disjoint acc (TripleOp.del, t) h)

theorem foldl_applyInsertTriple_disjoint (ts : List String)
    (acc : Finset String × Finset String) (h : PairDisjoint acc) :
    PairDisjoint (ts.foldl applyInsertTriple acc) := by
  induction ts generalizing acc with
  | nil => exact h
  | cons t rest ih => exact ih _ (applyTripleOp_disjoint acc (TripleOp.ins, t) h)

theorem applyDeletePayload_disjoint {acc acc' : Finset String × Finset String}
    {p : Payload} (h : applyDeletePayload acc p = some acc')
    (hd : PairDisjoint acc) : PairDisjoint acc' := by
  cases p with
  | absent => cases h; exact hd
  | malformed => cases h
  | triples ts => cases h; exact foldl_applyDeleteTriple_disjoint ts acc hd

theorem applyInsertPayload_disjoint {acc acc' : Finset String × Finset String}
    {p : Payload} (h : applyInsertPayload acc p = some acc')
    (hd : PairDisjoint acc) : PairDisjoint acc' := by
  cases p with
  | absent => cases h; exact hd
  | malformed => cases h
  | triples ts => cases h; exact foldl_applyInsertTriple_disjoint ts acc hd

theorem applyEventPayloads_disjoint {acc acc' : Finset String × Finset String}
    {e : Event} (h : applyEventPayloads acc e = some acc')
    (hd : PairDisjoint acc) : PairDisjoint acc' := by
  unfold applyEventPayloads at h
  repeat' split at h
  · cases h
  · cases h
  · cases h
  next _ acc1 h1 _ acc2 h2 _ acc3 h3 =>
    exact applyInsertPayload_disjoint h
      (applyInsertPayload_disjoint h3
        (applyDeletePayload_disjoint h2 (applyDeletePayload_disjoint h1 hd)))

theorem applyInsertTriple_mem_pres {T : String}
    {acc : Finset String × Finset String} (t : String)
    (h : T ∈ acc.1 ∧ T ∉ acc.2) :
    T ∈ (applyInsertTriple acc t).1 ∧ T ∉ (applyInsertTriple acc t).2 := by
  by_cases hT : T = t
  · subst hT
    exact applyInsertTriple_mem_self acc T
  · exact ⟨((applyInsertTriple_mem_other acc t T hT).1).mpr h.1,
      fun hc => h.2 (((applyInsertTriple_mem_other acc t T hT).2).mp hc)⟩

theorem foldl_applyInsertTriple_mem_pres {T : String} (ts : List String)
    (acc : Finset String × Finset String) (h : T ∈ acc.1 ∧ T ∉ acc.2) :
    T ∈ (ts.foldl applyInsertTriple acc).1 ∧
    T ∉ (ts.foldl applyInsertTriple acc).2 := by
  induction ts generalizing acc with
  | nil => exact h
  | cons t rest ih => exact ih _ (applyInsertTriple_mem_pres t h)

theorem foldl_applyInsertTriple_mem_est {T : String} (ts : List String)
    (acc : Finset String × Finset String) (h : T ∈ ts) :
    T ∈ (ts.foldl applyInsertTriple acc).1 ∧
    T ∉ (ts.foldl applyInsertTriple acc).2 := by
  induction ts generalizing acc with
  | nil => cases h
  | cons t rest ih =>
    by_cases hT : T ∈ rest
    · exact ih _ hT
    · have ht : T = t := by
        rcases List.mem_cons.mp h with h' | h'
        · exact h'
        · exact absurd h' hT
      subst ht
      exact foldl_applyInsertTriple_mem_pres rest _
        (applyInsertTriple_mem_self acc T)

theorem applyInsertPayload_mem_pres {T : String}
    {acc acc' : Finset String × Finset String} {p : Payload}
    (hp : applyInsertPayload acc p = some acc') (h : T ∈ acc.1 ∧ T ∉ acc.2) :
    T ∈ acc'.1 ∧ T ∉ acc'.2 := by
  cases p with
  | absent => cases hp; exact h
  | malformed => cases hp
  | triples ts => cases hp; exact foldl_applyInsertTriple_mem_pres ts acc h

theorem applyInsertPayload_mem_est {T : String}
    {acc acc' : Finset String × Finset String} {p : Payload}
    (hp : applyInsertPayload acc p = some acc') (h : payloadContains p T) :
    T ∈ acc'.1 ∧ T ∉ acc'.2 := by
  cases p with
  | absent => cases h
  | malformed => cases hp
  | triples ts => cases hp; exact foldl_applyInsertTriple_mem_est ts acc h

theorem applyEventPayloads_mem_inserted {T : String}
    {acc acc' : Finset String × Finset String} {e : Event}
    (h : applyEventPayloads acc e = some acc')
    (hT : payloadContains e.rdf_added_data T ∨
          payloadContains e.rdf_linked_shared_data T) :
    T ∈ acc'.1 ∧ T ∉ acc'.2 := by
  unfold applyEventPayloads at h
  repeat' split at h
  · cases h
  · cases h
  · cases h
  next _ acc1 h1 _ acc2 h2 _ acc3 h3 =>
    rcases hT with hT | hT
    · exact applyInsertPayload_mem_pres h (applyInsertPayload_mem_est h3 hT)
    · exact applyInsertPayload_mem_est h hT

theorem applyEventPayloads_none {acc : Finset String × Finset String}
    {e : Event} (h : applyEventPayloads acc e = none) :
    e.rdf_deleted_data = Payload.malformed ∨
    e.rdf_unlinked_shared_data = Payload.malformed ∨
    e.rdf_added_data = Payload.malformed ∨
    e.rdf_linked_shared_data = Payload.malformed := by
  unfold applyEventPayloads at h
  repeat' split at h
  · left
    cases hd : e.rdf_deleted_data <;> simp_all [applyDeletePayload]
  · right; left
    cases hu : e.rdf_unlinked_shared_data <;> simp_all [applyDeletePayload]
  · right; right; left
    cases ha : e.rdf_added_data <;> simp_all [applyInsertPayload]
  · right; right; right
    cases hl : e.rdf_linked_shared_data <;> simp_all [applyInsertPayload]

theorem processEvent_fatal {args : Args} {now : Int} {st : BatchState}
    {e : Event} (h : processEvent args now st e = .fatal) :
    e.rdf_deleted_data = Payload.malformed ∨
    e.rdf_unlinked_shared_data = Payload.malformed ∨
    e.rdf_added_data = Payload.malformed ∨
    e.rdf_linked_shared_data = Payload.malformed := by
  unfold processEvent at h
  repeat' split at h
  all_goals first
    | exact applyEventPayloads_none (by assumption)
    | cases h

/-- C1, counterexample. The claim states that applying a delete-payload
triple that is currently in `insertSet` removes it from `insertSet` and
does NOT add it to `deleteSet` (net zero). In the source (lines 779-781)
the `delete_triples.add(triple)` call is not guarded by an `else`: after
an insert of a triple followed by a delete of the same triple, the triple
IS a member of `delete_triples` (and the "net zero" / parity consequence
fails: insert-then-delete leaves the triple in the delete set, not in
neither set). -/
theorem claim_C1_counterexample :
    "<s> <p> <o>" ∈
      (applyDeleteTriple
        (applyInsertTriple ((∅ : Finset String), (∅ : Finset String))
          "<s> <p> <o>") "<s> <p> <o>").2 ∧
    "<s> <p> <o>" ∉
      (applyDeleteTriple
        (applyInsertTriple ((∅ : Finset String), (∅ : Finset String))
          "<s> <p> <o>") "<s> <p> <o>").1 := by
  decide

/-- C1, amended: applying a delete-payload triple removes it from
`insert_triples` when present and always adds it to `delete_triples`;
applying an insert-payload triple removes it from `delete_triples` when
present and always adds it to `insert_triples`; consequently, for any
interleaving of insert and delete operations on the same triple within
one batch, the triple's final membership depends only on the LAST of
those operations (not on their parity): it is in `insert_triples` exactly
when the last operation was an insert, and in `delete_triples` exactly
when the last operation was a delete. -/
theorem claim_C1_theorem (t : String) (acc : Finset String × Finset String)
    (ops : List TripleOp) (op : TripleOp) :
    (t ∉ (applyDeleteTriple acc t).1 ∧ t ∈ (applyDeleteTriple acc t).2) ∧
    (t ∈ (applyInsertTriple acc t).1 ∧ t ∉ (applyInsertTriple acc t).2) ∧
    ((t ∈ ((ops ++ [op]).foldl (fun a o => applyTripleOp a (o, t)) acc).1 ↔
        op = TripleOp.ins) ∧
     (t ∈ ((ops ++ [op]).foldl (fun a o => applyTripleOp a (o, t)) acc).2 ↔
        op = TripleOp.del)) := by
  refine ⟨applyDeleteTriple_mem_self acc t, applyInsertTriple_mem_self acc t,
    ?_⟩
  rw [List.foldl_append]
  simp only [List.foldl_cons, List.foldl_nil]
  exact applyTripleOp_self_mem _ t op

/-- C2: starting from a changeset whose `insert_triples` and
`delete_triples` are disjoint, any sequence of per-triple operations of
the source (lines 779-781 and 812-814) keeps the two sets disjoint — each
operation that adds a triple to one set removes it from the other, so no
triple is ever a member of both sets, at any step of batch assembly. -/
theorem claim_C2_theorem (ops : List (TripleOp × String))
    (acc : Finset String × Finset String) (h : PairDisjoint acc) :
    PairDisjoint (ops.foldl applyTripleOp acc) :=
  foldl_applyTripleOp_disjoint ops acc h

/-- C2, witness: a concrete run of the per-triple operations starting
from the empty (disjoint) changeset never puts a triple in both sets. -/
theorem claim_C2_witness :
    ¬ ("<a>" ∈
        (([(TripleOp.ins, "<a>"), (TripleOp.del, "<a>"),
           (TripleOp.ins, "<b>")].foldl applyTripleOp
          ((∅ : Finset String), (∅ : Finset String)))).1 ∧
       "<a>" ∈
        (([(TripleOp.ins, "<a>"), (TripleOp.del, "<a>"),
           (TripleOp.ins, "<b>")].foldl applyTripleOp
          ((∅ : Finset String), (∅ : Finset String)))).2) := by
  intro hc
  exact claim_C2_theorem
    [(TripleOp.ins, "<a>"), (TripleOp.del, "<a>"), (TripleOp.ins, "<b>")]
    ((∅ : Finset String), (∅ : Finset String))
    (fun x hx => by simp at hx) "<a>" hc.1 hc.2

/-- C3: the offset check before each batch after the first compares the
endpoint's stored next-offset watermark with the batch's intended first
offset (lines 524-562): equal means proceed; a smaller watermark rewinds
to the watermark's offset when `--rewind-to-earlier-offset=yes` (and is
fatal when rewind is disabled); a larger watermark is fatal with no
recovery. In particular, with the stream at offset 100 and the watermark
at 80, the check yields a rewind to 80, and the iteration reconnects with
`event_id_for_next_batch` at offset 80 (so the next connection requests
offset 80). -/
theorem claim_C3_theorem (rw_enabled : Bool) (endpoint expected : Nat) :
    (endpoint = expected →
      checkOffset rw_enabled endpoint expected = .proceed) ∧
    (endpoint < expected → rw_enabled = true →
      checkOffset rw_enabled endpoint expected = .rewindTo endpoint) ∧
    (endpoint > expected →
      checkOffset rw_enabled endpoint expected = .fatalMismatch) ∧
    (∀ (n : Nat) (store_rejects : Bool),
      checkOffset true 80 100 = .rewindTo 80 ∧
      loopIteration true true ⟨false, 100, 80⟩ n store_rejects =
        .rewound ⟨false, 80, 80⟩) := by
  refine ⟨?_, ?_, ?_, ?_⟩
  · intro h
    subst h
    simp [checkOffset]
  · intro hlt hrw
    subst hrw
    simp [checkOffset, hlt]
  · intro hgt
    have hnlt : ¬ endpoint < expected := by omega
    simp [checkOffset, hnlt, hgt]
  · intro n store_rejects
    constructor
    · decide
    · simp [loopIteration, checkOffset]

/-- C3, witness: the offset-check trichotomy applied at concrete offsets
(watermark 80, stream offset 100, rewind enabled). -/
theorem claim_C3_witness :
    checkOffset true 80 100 = .rewindTo 80 ∧
    checkOffset true 100 100 = .proceed ∧
    checkOffset true 120 100 = .fatalMismatch ∧
    loopIteration true true ⟨false, 100, 80⟩ 1 false =
      .rewound ⟨false, 80, 80⟩ := by
  refine ⟨(claim_C3_theorem true 80 100).2.1 (by decide) rfl,
    (claim_C3_theorem true 100 100).1 rfl,
    (claim_C3_theorem true 120 100).2.2.1 (by decide),
    ((claim_C3_theorem true 80 100).2.2.2 1 false).2⟩

/-- C4, counterexample. The claim states that after a store-reported
semantic exception "the next loop iteration re-derives its start point
from the store". In the source, the `continue` at line 1028 skips the
`first_batch = False` assignment at line 1222, so when the exception hits
the run's FIRST batch the next iteration still has `first_batch = True`,
skips the offset check (line 490), and assembles from the already
advanced in-memory resume token: with the store watermark at 10 and a
rejected 5-event first batch, the next iteration applies a batch starting
at offset 15 — the events at offsets 10-14 are lost, and the start point
was never re-derived from the store. -/
theorem claim_C4_counterexample :
    loopIteration true true ⟨true, 10, 10⟩ 5 true =
      .abandoned ⟨true, 15, 10⟩ ∧
    loopIteration true true ⟨true, 15, 10⟩ 3 false =
      .applied ⟨false, 18, 18⟩ := by
  constructor <;> rfl

/-- C4, amended: a store-reported semantic exception never terminates the
run at that point: the batch is abandoned (`continue`), the store's
persisted watermark is not advanced by the rejected transaction, and
`first_batch` and the store offset are left unchanged while the in-memory
resume token stays advanced. For batches after the first, with the offset
check and rewind enabled, the NEXT iteration then re-derives its start
point from the store: its offset check rewinds the resume token back to
the store's watermark. (After a first-batch rejection the offset check is
still skipped and no re-derivation happens — see the counterexample.) -/
theorem claim_C4_theorem :
    (∀ (c rw_e : Bool) (st : LoopState) (n : Nat),
      (st.first_batch = true ∨ st.store_offset = st.resume_offset) →
      loopIteration c rw_e st n true =
        .abandoned { st with resume_offset := st.resume_offset + n }) ∧
    (∀ (st : LoopState) (n : Nat) (store_rejects : Bool),
      st.first_batch = false → st.store_offset < st.resume_offset →
      loopIteration true true st n store_rejects =
        .rewound { st with resume_offset := st.store_offset }) := by
  constructor
  · intro c rw_e st n h
    unfold loopIteration
    rcases h with h | h
    · have hc : ¬ (c = true ∧ st.first_batch = false) := by
        intro hc
        rw [h] at hc
        cases hc.2
      rw [if_neg hc]
      simp [assembleAndApply]
    · by_cases hc : c = true ∧ st.first_batch = false
      · rw [if_pos hc]
        simp [checkOffset, assembleAndApply, h]
      · rw [if_neg hc]
        simp [assembleAndApply]
  · intro st n store_rejects hfb hlt
    unfold loopIteration
    rw [if_pos ⟨rfl, hfb⟩]
    simp [checkOffset, hlt]

/-- C4, witness: with the store watermark at 10, a rejected 5-event batch
(not the first) is abandoned with the store untouched, and the following
iteration's offset check rewinds the resume token from 15 back to the
store's watermark 10. -/
theorem claim_C4_witness :
    loopIteration true true ⟨false, 10, 10⟩ 5 true =
      .abandoned ⟨false, 15, 10⟩ ∧
    loopIteration true true ⟨false, 15, 10⟩ 3 false =
      .rewound ⟨false, 10, 10⟩ := by
  exact ⟨claim_C4_theorem.1 true true ⟨false, 10, 10⟩ 5 (Or.inr rfl),
    claim_C4_theorem.2 ⟨false, 15, 10⟩ 3 false rfl (by decide)⟩

theorem consumesAll_offset {args : Args} {now : Int} :
    ∀ {es : List Event} {st st' : BatchState} {O : Nat},
    ConsumesAll args now st es st' →
    es.map Event.offset = List.range' O es.length →
    0 < es.length →
    Option.map EventId.offset st'.event_id_for_next_batch =
      some (O + es.length) := by
  intro es
  induction es with
  | nil =>
    intro st st' O hca hoff hlen
    simp at hlen
  | cons e rest ih =>
    intro st st' O hca hoff hlen
    cases hca
    rename_i st₁ hstep hrest
    rw [List.length_cons, List.range'_succ O rest.length 1] at hoff
    rw [List.map_cons] at hoff
    injection hoff with h1 h2
    cases rest with
    | nil =>
      cases hrest
      have htok := (processEvent_consumed_counts hstep).1
      rw [htok]
      simp [h1]
    | cons f fs =>
      have hres := ih hrest h2 (by simp)
      rw [hres]
      have : O + 1 + (f :: fs).length = O + (e :: f :: fs).length := by
        simp
        omega
      rw [this]

/-- C5: (a) every successful consumption of an event sets the resume
token `event_id_for_next_batch` to that event's
`{topic, partition, offset + 1}` (lines 850-856); (b) a closing condition
leaves the batch state — in particular the resume token — unchanged, so
the token's value does not depend on which condition ultimately closed
the batch; (c) consequently, after consuming N > 0 events whose offsets
are the consecutive values O, O+1, ..., O+N-1, the batch's resume token
holds offset O+N. -/
theorem claim_C5_theorem :
    (∀ (args : Args) (now : Int) (st : BatchState) (e : Event)
       (st' : BatchState),
      processEvent args now st e = .consumed st' →
      st'.event_id_for_next_batch = some ⟨e.topic, e.part, e.offset + 1⟩) ∧
    (∀ (args : Args) (now : Int) (st : BatchState) (e : Event)
       (r : CloseReason) (st' : BatchState),
      processEvent args now st e = .closed r st' → st' = st) ∧
    (∀ (args : Args) (now : Int) (st st' : BatchState) (es : List Event)
       (O : Nat),
      ConsumesAll args now st es st' →
      es.map Event.offset = List.range' O es.length →
      0 < es.length →
      Option.map EventId.offset st'.event_id_for_next_batch =
        some (O + es.length)) := by
  refine ⟨?_, ?_, ?_⟩
  · intro args now st e st' h
    exact (processEvent_consumed_counts h).1
  · intro args now st e r st' h
    exact processEvent_closed_eq h
  · intro args now st st' es O hca hoff hlen
    exact consumesAll_offset hca hoff hlen

/-- C5, witness: consuming the two events at offsets 7 and 8 starting
from an empty batch leaves the resume token at offset 9 = 7 + 2. -/
theorem claim_C5_witness :
    Option.map EventId.offset
      (BatchState.event_id_for_next_batch
        ⟨2, 2, ∅, insert "<x>" ∅, ∅, some ⟨"t", 0, 9⟩⟩) = some (7 + 2) := by
  refine claim_C5_theorem.2.2 ⟨100, 1, none, none, "t"⟩ 1000 (initBatch 0)
    ⟨2, 2, ∅, insert "<x>" ∅, ∅, some ⟨"t", 0, 9⟩⟩
    [⟨"t", 0, 7, .valid 0, "Q1", "update", .triples ["<x>"], .absent,
      .absent, .absent⟩,
     ⟨"t", 0, 8, .valid 0, "Q1", "update", .triples ["<x>"], .absent,
      .absent, .absent⟩] 7 ?_ (by decide) (by decide)
  exact ConsumesAll.cons (initBatch 0)
    ⟨1, 1, ∅, insert "<x>" ∅, ∅, some ⟨"t", 0, 8⟩⟩ _ _ _ (by decide)
    (ConsumesAll.cons ⟨1, 1, ∅, insert "<x>" ∅, ∅, some ⟨"t", 0, 8⟩⟩
      ⟨2, 2, ∅, insert "<x>" ∅, ∅, some ⟨"t", 0, 9⟩⟩ _ _ _ (by decide)
      (ConsumesAll.nil _))

/-- C6: when the next event would add data (its `rdf_added_data` or
`rdf_linked_shared_data` field is present) for an entity already in
`delete_entity_ids`, the batch closes immediately (condition 1,
lines 666-682) with the batch state completely unchanged: no triples are
merged, and `current_batch_size`, `total_num_messages` and the resume
token keep their values, so the next batch resumes exactly at the
triggering event. (The event must carry a `dt` field, since a missing
`dt` raises at line 640 before condition 1 is reached.) -/
theorem claim_C6_theorem (args : Args) (now : Int) (st : BatchState)
    (e : Event) (htopic : e.topic = args.topic)
    (hdt : e.dt ≠ DateField.missing)
    (hadds : e.rdf_added_data ≠ Payload.absent ∨
             e.rdf_linked_shared_data ≠ Payload.absent)
    (hconf : e.entity_id ∈ st.delete_entity_ids) :
    processEvent args now st e = .closed .conflict st := by
  have h1 : ¬ e.topic ≠ args.topic := by simp [htopic]
  unfold processEvent
  rw [if_neg h1, if_neg hdt, if_pos ⟨hadds, hconf⟩]

/-- C6, witness: for the event sequence
`[Delete(entity=Q1), Insert(entity=Q1, triple=T)]` the batch closes with
only the delete consumed, the remainder starts with the Insert event, the
resume token points at the Insert event's offset 8, and the closing step
leaves the one-event batch state unchanged. -/
theorem claim_C6_witness :
    assemble ⟨100, 1, none, none, "t"⟩ 1000 (initBatch 0)
      [⟨"t", 0, 7, .valid 0, "Q1", "delete", .absent, .triples ["<d>"],
        .absent, .absent⟩,
       ⟨"t", 0, 8, .valid 0, "Q1", "update", .triples ["<T>"], .absent,
        .absent, .absent⟩] =
      .closedBatch .conflict
        ⟨1, 1, insert "Q1" ∅, ∅, insert "<d>" ∅, some ⟨"t", 0, 8⟩⟩
        [⟨"t", 0, 8, .valid 0, "Q1", "update", .triples ["<T>"], .absent,
          .absent, .absent⟩] ∧
    processEvent ⟨100, 1, none, none, "t"⟩ 1000
      ⟨1, 1, insert "Q1" ∅, ∅, insert "<d>" ∅, some ⟨"t", 0, 8⟩⟩
      ⟨"t", 0, 8, .valid 0, "Q1", "update", .triples ["<T>"], .absent,
        .absent, .absent⟩ =
      .closed .conflict
        ⟨1, 1, insert "Q1" ∅, ∅, insert "<d>" ∅, some ⟨"t", 0, 8⟩⟩ := by
  constructor
  · decide
  · exact claim_C6_theorem ⟨100, 1, none, none, "t"⟩ 1000
      ⟨1, 1, insert "Q1" ∅, ∅, insert "<d>" ∅, some ⟨"t", 0, 8⟩⟩
      ⟨"t", 0, 8, .valid 0, "Q1", "update", .triples ["<T>"], .absent,
        .absent, .absent⟩ rfl (by decide) (Or.inl (by decide)) (by decide)

/-- C7: the Freshness closing condition (condition 3, lines 692-715)
fires only for an event whose parsed timestamp is within the configured
lag window of wall-clock now AND when the batch has already consumed at
least one event — an empty batch never closes on Freshness — and it
leaves the batch state unchanged. -/
theorem claim_C7_theorem (args : Args) (now : Int) (st : BatchState)
    (e : Event) (st' : BatchState)
    (h : processEvent args now st e = .closed .freshness st') :
    (∃ d, e.dt = DateField.valid d ∧ now - d < args.lag_seconds) ∧
    st.current_batch_size > 0 ∧ st' = st := by
  unfold processEvent at h
  repeat' split at h
  all_goals cases h
  rename_i d heq hcond
  exact ⟨⟨d, heq, hcond.1⟩, hcond.2, rfl⟩

/-- C7, witness: one old-enough event (timestamp 0, far outside the
5-second lag window of now = 1000) followed by a within-lag event
(timestamp 999) yields a one-event batch that then closes on Freshness. -/
theorem claim_C7_witness :
    assemble ⟨100, 5, none, none, "t"⟩ 1000 (initBatch 0)
      [⟨"t", 0, 7, .valid 0, "Q1", "update", .triples ["<x>"], .absent,
        .absent, .absent⟩,
       ⟨"t", 0, 8, .valid 999, "Q2", "update", .triples ["<y>"], .absent,
        .absent, .absent⟩] =
      .closedBatch .freshness
        ⟨1, 1, ∅, insert "<x>" ∅, ∅, some ⟨"t", 0, 8⟩⟩
        [⟨"t", 0, 8, .valid 999, "Q2", "update", .triples ["<y>"], .absent,
          .absent, .absent⟩] ∧
    ((∃ d, DateField.valid (999 : Int) = DateField.valid d ∧
        (1000 : Int) - d < 5) ∧
     (1 : Nat) > 0 ∧
     (⟨1, 1, ∅, insert "<x>" ∅, ∅, some ⟨"t", 0, 8⟩⟩ : BatchState) =
       ⟨1, 1, ∅, insert "<x>" ∅, ∅, some ⟨"t", 0, 8⟩⟩) := by
  constructor
  · decide
  · exact claim_C7_theorem ⟨100, 5, none, none, "t"⟩ 1000
      ⟨1, 1, ∅, insert "<x>" ∅, ∅, some ⟨"t", 0, 8⟩⟩
      ⟨"t", 0, 8, .valid 999, "Q2", "update", .triples ["<y>"], .absent,
        .absent, .absent⟩
      ⟨1, 1, ∅, insert "<x>" ∅, ∅, some ⟨"t", 0, 8⟩⟩ (by decide)

/-- C8, counterexample. The claim states that every malformed event (bad
payload or bad timestamp) is skipped and the run does not fail. In the
source, a payload on which `graph.parse` raises is handled by the inner
`except` blocks at lines 782-786 / 815-819, which `return False`: on an
otherwise well-formed event whose `rdf_deleted_data` does not parse, the
whole run fails instead of skipping the event. -/
theorem claim_C8_counterexample :
    processEvent ⟨100, 1, none, none, "t"⟩ 1000 (initBatch 0)
      ⟨"t", 0, 7, .valid 0, "Q1", "update", .absent, .malformed, .absent,
        .absent⟩ = .fatal := by
  decide

/-- C8, amended: an event with a malformed timestamp (or missing
metadata) is skipped — logged and passed over with the batch state, the
counters and the resume token unchanged, the batch continuing with the
next event — and every skip leaves the state unchanged; but a malformed
RDF payload is NOT tolerated: the only way the per-event processing makes
the run fail is a `graph.parse` failure on one of the four payload
fields, and such a failure terminates the run (`return False`). -/
theorem claim_C8_theorem :
    (∀ (args : Args) (now : Int) (st : BatchState) (e : Event),
      e.topic = args.topic → e.dt = DateField.missing →
      processEvent args now st e = .skipped st) ∧
    (∀ (args : Args) (now : Int) (st : BatchState) (e : Event)
       (st' : BatchState),
      processEvent args now st e = .skipped st' → st' = st) ∧
    (∀ (args : Args) (now : Int) (st : BatchState) (e : Event),
      processEvent args now st e = .fatal →
      e.rdf_deleted_data = Payload.malformed ∨
      e.rdf_unlinked_shared_data = Payload.malformed ∨
      e.rdf_added_data = Payload.malformed ∨
      e.rdf_linked_shared_data = Payload.malformed) := by
  refine ⟨?_, ?_, ?_⟩
  · intro args now st e htopic hdt
    have h1 : ¬ e.topic ≠ args.topic := by simp [htopic]
    unfold processEvent
    rw [if_neg h1, if_pos hdt]
  · intro args now st e st' h
    exact processEvent_skipped_eq h
  · intro args now st e h
    exact processEvent_fatal h

/-- C8, witness: a missing-timestamp event is skipped with the state
unchanged, and a fatal outcome pinpoints a malformed payload field. -/
theorem claim_C8_witness :
    processEvent ⟨100, 1, none, none, "t"⟩ 1000 (initBatch 0)
      ⟨"t", 0, 7, .missing, "Q1", "update", .triples ["<x>"], .absent,
        .absent, .absent⟩ = .skipped (initBatch 0) ∧
    (Payload.malformed = Payload.malformed ∨
     Payload.absent = Payload.malformed ∨
     Payload.absent = Payload.malformed ∨
     Payload.absent = Payload.malformed) := by
  constructor
  · exact claim_C8_theorem.1 ⟨100, 1, none, none, "t"⟩ 1000 (initBatch 0)
      ⟨"t", 0, 7, .missing, "Q1", "update", .triples ["<x>"], .absent,
        .absent, .absent⟩ rfl rfl
  · exact claim_C8_theorem.2.2 ⟨100, 1, none, none, "t"⟩ 1000 (initBatch 0)
      ⟨"t", 0, 7, .valid 0, "Q1", "update", .absent, .malformed, .absent,
        .absent⟩ (by decide)

theorem processEvent_consumed_inv {args : Args} {now : Int}
    {st : BatchState} {e : Event} {st' : BatchState} {t0 : Nat}
    (h : processEvent args now st e = .consumed st') (hinv : BatchInv t0 st) :
    BatchInv t0 st' := by
  obtain ⟨-, h2, h3⟩ := processEvent_consumed_counts h
  constructor
  · intro h0
    rw [h2] at h0
    exact absurd h0 (Nat.succ_ne_zero _)
  · rw [h3, h2, hinv.2]
    omega

theorem processEvent_closed_nonempty {args : Args} {now : Int}
    {st : BatchState} {e : Event} {r : CloseReason} {st' : BatchState}
    {t0 : Nat}
    (h : processEvent args now st e = .closed r st') (hinv : BatchInv t0 st)
    (hbs : 1 ≤ args.batch_size)
    (hnm : ∀ m, args.num_messages = some m → t0 < m) :
    1 ≤ st.current_batch_size := by
  unfold processEvent at h
  repeat' split at h
  all_goals cases h
  · rename_i hc
    rcases Nat.eq_zero_or_pos st.current_batch_size with h0 | h1
    · rw [hinv.1 h0] at hc
      exact absurd hc.2 (Finset.not_mem_empty _)
    · exact h1
  · rename_i hs
    rcases hs with hs | hs
    · omega
    · unfold numMessagesReached at hs
      cases hm : args.num_messages with
      | none => rw [hm] at hs; cases hs
      | some m =>
        rw [hm] at hs
        have hm2 : st.total_num_messages ≥ m := by simpa using hs
        have hm3 := hnm m hm
        have ht := hinv.2
        omega
  · rename_i hcond
    exact hcond.2
  · rename_i hcond
    exact hcond.2

theorem assemble_closed_nonempty {args : Args} {now : Int} {t0 : Nat}
    (hbs : 1 ≤ args.batch_size)
    (hnm : ∀ m, args.num_messages = some m → t0 < m) :
    ∀ {es : List Event} {st st' : BatchState} {r : CloseReason}
      {rest : List Event},
    assemble args now st es = .closedBatch r st' rest →
    BatchInv t0 st →
    1 ≤ st'.current_batch_size := by
  intro es
  induction es with
  | nil =>
    intro st st' r rest h hinv
    cases h
  | cons e tail ih =>
    intro st st' r rest h hinv
    unfold assemble at h
    cases hpe : processEvent args now st e with
    | consumed st₁ =>
      rw [hpe] at h
      exact ih h (processEvent_consumed_inv hpe hinv)
    | skipped st₁ =>
      rw [hpe] at h
      have heq := processEvent_skipped_eq hpe
      subst heq
      exact ih h hinv
    | closed r₁ st₁ =>
      rw [hpe] at h
      cases h
      have heq := processEvent_closed_eq hpe
      subst heq
      exact processEvent_closed_nonempty hpe hinv hbs hnm
    | fatal =>
      rw [hpe] at h
      cases h

/-- C9, counterexample. The claim states that the Horizon (`--until`)
closing path may legitimately end the run with an EMPTY batch. In the
source, condition 4 (lines 719-723) requires `current_batch_size > 0`:
with `--until` 100 and an event dated 150 arriving at an empty batch, the
batch does not close — the event is consumed into a one-event batch —
so the Horizon path can never produce an empty closed batch. -/
theorem claim_C9_counterexample :
    processEvent ⟨100, 1, none, some 100, "t"⟩ 1000 (initBatch 0)
      ⟨"t", 0, 7, .valid 150, "Q1", "update", .triples ["<x>"], .absent,
        .absent, .absent⟩ ≠
      .closed .horizon (initBatch 0) ∧
    processEvent ⟨100, 1, none, some 100, "t"⟩ 1000 (initBatch 0)
      ⟨"t", 0, 7, .valid 150, "Q1", "update", .triples ["<x>"], .absent,
        .absent, .absent⟩ =
      .consumed ⟨1, 1, ∅, insert "<x>" ∅, ∅, some ⟨"t", 0, 8⟩⟩ := by
  constructor
  · decide
  · decide

/-- C9, amended: every batch that becomes Closed — via ANY closing
condition, the Horizon path included — has consumed at least one event
(assuming a positive `--batch-size` and a `--num-messages` bound not
already exhausted when the batch starts); the Horizon condition itself
requires a non-empty batch, so an event at or past the `--until` date
arriving at an empty batch is consumed rather than closing the run with
an empty batch. -/
theorem claim_C9_theorem (args : Args) (now : Int) (es : List Event)
    (t0 : Nat) (r : CloseReason) (st' : BatchState) (rest : List Event)
    (hbs : 1 ≤ args.batch_size)
    (hnm : ∀ m, args.num_messages = some m → t0 < m)
    (h : assemble args now (initBatch t0) es = .closedBatch r st' rest) :
    1 ≤ st'.current_batch_size :=
  assemble_closed_nonempty hbs hnm h ⟨fun _ => rfl, rfl⟩

/-- C9, witness: with `--until` 100, the event dated 150 is consumed into
the empty batch and the following event dated 151 closes it via Horizon
as a one-event batch. -/
theorem claim_C9_witness :
    1 ≤ BatchState.current_batch_size
      ⟨1, 1, ∅, insert "<x>" ∅, ∅, some ⟨"t", 0, 8⟩⟩ :=
  claim_C9_theorem ⟨100, 1, none, some 100, "t"⟩ 1000
    [⟨"t", 0, 7, .valid 150, "Q1", "update", .triples ["<x>"], .absent,
      .absent, .absent⟩,
     ⟨"t", 0, 8, .valid 151, "Q2", "update", .triples ["<y>"], .absent,
      .absent, .absent⟩]
    0 .horizon ⟨1, 1, ∅, insert "<x>" ∅, ∅, some ⟨"t", 0, 8⟩⟩
    [⟨"t", 0, 8, .valid 151, "Q2", "update", .triples ["<y>"], .absent,
      .absent, .absent⟩]
    (by decide) (fun m hm => by cases hm) (by decide)

/-- C10: when one event is consumed, the to-be-deleted payloads
(`rdf_deleted_data`, `rdf_unlinked_shared_data`) are applied before the
to-be-added payloads (`rdf_added_data`, `rdf_linked_shared_data`) — as
`applyEventPayloads` composes them — so for an event whose delete payload
and insert payload both contain the same triple T, after consuming that
event T is a member of `insert_triples` and not of `delete_triples`. -/
theorem claim_C10_theorem (args : Args) (now : Int) (st : BatchState)
    (e : Event) (st' : BatchState) (T : String)
    (hdel : payloadContains e.rdf_deleted_data T ∨
            payloadContains e.rdf_unlinked_shared_data T)
    (hins : payloadContains e.rdf_added_data T ∨
            payloadContains e.rdf_linked_shared_data T)
    (h : processEvent args now st e = .consumed st') :
    T ∈ st'.insert_triples ∧ T ∉ st'.delete_triples := by
  unfold processEvent at h
  repeat' split at h
  all_goals cases h
  all_goals exact applyEventPayloads_mem_inserted (by assumption) hins

/-- C10, witness: an event whose delete payload and insert payload both
contain the triple T leaves T inserted and not deleted. -/
theorem claim_C10_witness :
    "<T>" ∈ BatchState.insert_triples
      ⟨1, 1, ∅, insert "<T>" ∅, ∅, some ⟨"t", 0, 8⟩⟩ ∧
    "<T>" ∉ BatchState.delete_triples
      ⟨1, 1, ∅, insert "<T>" ∅, ∅, some ⟨"t", 0, 8⟩⟩ :=
  claim_C10_theorem ⟨100, 1, none, none, "t"⟩ 1000 (initBatch 0)
    ⟨"t", 0, 7, .valid 0, "Q1", "update", .triples ["<T>"],
      .triples ["<T>"], .absent, .absent⟩
    ⟨1, 1, ∅, insert "<T>" ∅, ∅, some ⟨"t", 0, 8⟩⟩ "<T>"
    (Or.inl (by simp [payloadContains])) (Or.inl (by simp [payloadContains]))
    (by decide)

end UpdateWikidata
